import Mathlib

/-!
# The `test_mysql` example of `dbx`

A shallow embedding of `example/test_mysql/main.go`.  The program is a linear
script that drives a database library; the library and the database are the
environment.  The embedding records every library call `main` issues (the
trace), every line it prints, and whether it ended by `panic`.  The answers of
the environment (error or no error, returned rows, clock readings) are the
input `Env`.
-/

namespace Dbx

/-! ## Data model -/

/-- Clock readings (`time.Time`), kept abstract. -/
abbrev Time := Nat

/-- The Go type of a struct field, as far as `User` needs it. -/
inductive GoType where
  | int64
  | string
  | time
deriving DecidableEq, Repr

/-- One field of a struct declaration: name, type and `db` tag. -/
structure Field where
  name : String
  type : GoType
  dbTag : String
deriving DecidableEq, Repr

/-- The declaration `type User struct { ... }`, field by field. -/
def UserFields : List Field :=
  [ ⟨"Uid", .int64, "uid"⟩,
    ⟨"Gid", .int64, "gid"⟩,
    ⟨"Name", .string, "name"⟩,
    ⟨"CreateDate", .time, "createDate"⟩ ]

/-- A value of type `User`. -/
structure User where
  Uid : Int
  Gid : Int
  Name : String
  CreateDate : Time
deriving DecidableEq, Repr

/-- The zero value `User{}`. -/
def User.zero : User := ⟨0, 0, "", 0⟩

/-- A value in a `dbx.M` map. -/
inductive Val where
  | int (i : Int)
  | str (s : String)
deriving DecidableEq, Repr

/-- The condition a query builder carries. -/
inductive Cond where
  | WherePK (pk : Int)
  | WhereM (m : List (String × Val))
  | Where (expr : String) (arg : Int)
deriving DecidableEq, Repr

/-- A library call issued by `main`.  A builder chain such as
`db.Table("user").WherePK(1).One(u2)` is one call, named after its last
method, with the table and the condition as arguments. -/
inductive Call where
  | Open (driver dsn : String)
  | OpenLogFile (path : String)
  | SetMaxIdleConns (n : Int)
  | SetMaxOpenConns (n : Int)
  | SetConnMaxLifetime (seconds : Int)
  | Exec (sql : String)
  | BindStruct (table : String) (flag : Bool)
  | EnableCache (flag : Bool)
  | Insert (table : String) (u : User)
  | One (table : String) (c : Cond)
  | Update (table : String) (u : User)
  | UpdateM (table : String) (c : Cond) (m : List (String × Val))
  | Delete (table : String) (c : Cond)
  | All (table : String) (c : Cond)
  | Count (table : String) (c : Cond)
  | Sum (table : String) (c : Cond) (col : String)
  | Max (table : String) (c : Cond) (col : String)
  | Min (table : String) (c : Cond) (col : String)
  | QueryRow (sql : String) (arg : Int)
  | RowScan
  | Query (sql : String)
  | RowsClose
  | RowsNext
  | RowsScan
  | LoadCache (table : String)
  | Close
deriving DecidableEq, Repr

/-- The places in `main` where the environment answers.  The loop sites carry
the iteration they belong to. -/
inductive Site where
  | Open
  | ExecDrop
  | ExecCreate
  | InsertOne
  | One
  | Update
  | UpdateM
  | Delete
  | InsertLoop (i : Int)
  | All
  | UpdateMBatch
  | DeleteBatch
  | Count
  | Sum
  | Max
  | Min
  | QueryRowScan
  | Query
  | RowsScan (k : Nat)
deriving DecidableEq, Repr

/-- The answers of the library and the database during one run. -/
structure Env where
  /-- the error a call returns, `none` for `nil` -/
  err : Site → Option String
  /-- the reading of `time.Now()` next to a call -/
  now : Site → Time
  /-- the row `One` stores into `u2` -/
  oneRow : User
  /-- the rows `All` stores into `userList` -/
  allRows : List User
  /-- the number `Count`, `Sum`, `Max`, `Min` return -/
  agg : Site → Int
  /-- the value `QueryRow(...).Scan` stores into `uid` -/
  queryRowUid : Int
  /-- the result set of the multi-row `Query` -/
  queryRows : List (Int × String)

/-- What `main` writes to standard output. -/
inductive Printed where
  | user (u : User)
  | line (s : String)
deriving DecidableEq, Repr

/-! ## The result cursor

`db.Query` hands back a `*sql.Rows`.  Its type is not part of the example, and
the description of the example does not speak of it; the three methods `main`
uses follow the documented contract of Go's `database/sql`: `Close` prevents
further enumeration, `Next` reports whether there is a next row and closes the
cursor at the end, `Scan` reads the row `Next` prepared. -/

/-- Modelled from the spec: the cursor type `*sql.Rows` returned by `db.Query`
is missing from the source.  A cursor holds the rows not yet visited, the row
`Next` prepared, and whether it is closed. -/
structure Rows where
  pending : List (Int × String)
  current : Option (Int × String)
  closed : Bool
deriving DecidableEq, Repr

/-- Modelled from the spec: the method `rows.Close()`, missing from the source;
after it the cursor enumerates nothing more. -/
def Rows.Close (r : Rows) : Rows :=
  { r with current := none, closed := true }

/-- Modelled from the spec: the method `rows.Next()`, missing from the source:
the answer and the cursor afterwards.  A closed cursor answers `false`. -/
def Rows.Next (r : Rows) : Bool × Rows :=
  if r.closed then (false, r)
  else match r.pending with
    | [] => (false, { r with current := none, closed := true })
    | x :: xs => (true, { pending := xs, current := some x, closed := false })

/-- Modelled from the spec: the method `rows.Scan(&uid, &name)`, missing from
the source: the row read, or an error. -/
def Rows.Scan (r : Rows) : Except String (Int × String) :=
  if r.closed then .error "sql: Rows are closed"
  else match r.current with
    | none => .error "sql: Scan called without calling Next"
    | some x => .ok x

/-! ## Runs -/

/-- What has happened so far: the calls issued and the lines printed, oldest
first. -/
structure St where
  trace : List Call
  out : List Printed
deriving DecidableEq, Repr

/-- The outcome of a piece of the program: it went through, or it panicked. -/
inductive Res (α : Type) where
  | ok (a : α) (s : St)
  | panic (e : String) (s : St)
deriving DecidableEq, Repr

/-- The state an outcome ends in. -/
def Res.st {α : Type} : Res α → St
  | .ok _ s => s
  | .panic _ s => s

/-- Whether an outcome is a panic. -/
def Res.panicked {α : Type} : Res α → Bool
  | .ok _ _ => false
  | .panic _ _ => true

/-- A piece of the program. -/
def M (α : Type) : Type := St → Res α

/-- Sequencing: a panic skips what follows. -/
def M.bind {α β : Type} (m : M α) (f : α → M β) : M β := fun s =>
  match m s with
  | .ok a s' => f a s'
  | .panic e s' => .panic e s'

instance : Monad M where
  pure a := fun s => .ok a s
  bind := M.bind

/-- Issue a library call. -/
def emit (c : Call) : M Unit := fun s =>
  .ok () { s with trace := s.trace ++ [c] }

/-- Print with `fmt.Printf`. -/
def printf (p : Printed) : M Unit := fun s =>
  .ok () { s with out := s.out ++ [p] }

/-- The builtin `panic(err)`. -/
def goPanic {α : Type} (e : String) : M α := fun s => .panic e s

/-- Issue a library call and take the error it returns. -/
def call (env : Env) (site : Site) (c : Call) : M (Option String) := do
  emit c
  pure (env.err site)

/-- The statement `if err != nil { panic(err) }`. -/
def check (err : Option String) : M Unit :=
  match err with
  | some e => goPanic e
  | none => pure ()

/-- The statement `defer d` followed by `body`: `d` runs when `body` is left,
by return or by panic. -/
def withDefer {α : Type} (d : M Unit) (body : M α) : M α := fun s =>
  match body s with
  | .ok a s1 =>
    match d s1 with
    | .ok _ s2 => .ok a s2
    | .panic e s2 => .panic e s2
  | .panic e s1 =>
    match d s1 with
    | .ok _ s2 => .panic e s2
    | .panic e2 s2 => .panic e2 s2

/-! ## The program -/

/-- The data source name passed to `dbx.Open`. -/
def dsn : String := "root@tcp(localhost)/test?parseTime=true&charset=utf8"

/-- The first statement `main` executes. -/
def dropTableSQL : String := "DROP TABLE IF EXISTS user;"

/-- The second statement `main` executes. -/
def createTableSQL : String :=
  "CREATE TABLE user(\n\t\tuid        INT(11) PRIMARY KEY AUTO_INCREMENT,\n\t\tgid        INT(11) NOT NULL DEFAULT '0',\n\t\tname       TEXT             DEFAULT '',\n\t\tcreateDate DATETIME         DEFAULT CURRENT_TIMESTAMP\n\t\t);\n\t"

/-- The single-row raw query. -/
def queryRowSQL : String := "SELECT uid FROM user WHERE uid=?"

/-- The multi-row raw query. -/
def querySQL : String := "SELECT `uid`, `name` FROM `user` WHERE 1 ORDER BY uid DESC"

/-- The record the multi-insert loop builds in iteration `i`. -/
def loopUser (env : Env) (i : Int) : User :=
  { Uid := i, Gid := i, Name := "name-" ++ toString i, CreateDate := env.now (.InsertLoop i) }

/-- The loop `for i := int64(0); i < 5; i++ { ... Insert(u) ... }`, entered
with the counter at `i`. -/
def insertLoop (env : Env) (i : Int) : M Unit :=
  if i < 5 then
    M.bind (call env (.InsertLoop i) (.Insert "user" (loopUser env i))) fun err =>
    M.bind (check err) fun _ =>
    insertLoop env (i + 1)
  else
    pure ()
termination_by (5 - i).toNat
decreasing_by omega

/-- The loop `for _, u := range userList { fmt.Printf("%+v\n", u) }`. -/
def printUsers : List User → M Unit
  | [] => pure ()
  | u :: us => M.bind (printf (.user u)) fun _ => printUsers us

/-- The loop `for rows.Next() { rows.Scan(&uid, &name); fmt.Printf(...) }`,
entered for the `k`-th time with the variables `uid` and `name` as they
stand.  The result of `rows.Scan` is dropped; a failed scan leaves the
variables alone. -/
def scanLoop (env : Env) (rows : Rows) (k : Nat) (uid : Int) (name : String) : M Unit :=
  M.bind (emit .RowsNext) fun _ =>
  if h : rows.Next.1 = true then
    M.bind (emit .RowsScan) fun _ =>
    let scanned : Int × String :=
      match env.err (.RowsScan k), rows.Next.2.Scan with
      | none, .ok x => x
      | _, _ => (uid, name)
    M.bind (printf (.line ("uid: " ++ toString scanned.1 ++ ", name: " ++ scanned.2))) fun _ =>
    scanLoop env rows.Next.2 (k + 1) scanned.1 scanned.2
  else
    pure ()
termination_by rows.pending.length
decreasing_by
  unfold Rows.Next at h ⊢
  split
  · next hc => simp [hc] at h
  · next hc =>
    cases hp : rows.pending with
    | nil => simp [hc, hp] at h
    | cons x xs => simp

/-- Everything `main` does after `defer db.Close()`. -/
def afterDefer (env : Env) : M Unit := do
  -- output settings; `db.Stdout = os.Stdout` is an assignment, not a call
  emit (.OpenLogFile "./db1_error.log")
  -- parameters
  emit (.SetMaxIdleConns 10)
  emit (.SetMaxOpenConns 10)
  emit (.SetConnMaxLifetime 5)
  -- create the table
  let mut err ← call env .ExecDrop (.Exec dropTableSQL)
  err ← call env .ExecCreate (.Exec createTableSQL)
  check err
  -- cache
  emit (.BindStruct "user" true)
  emit (.EnableCache true)
  -- insert one
  let u1 : User := ⟨1, 1, "jet", env.now .InsertOne⟩
  err ← call env .InsertOne (.Insert "user" u1)
  check err
  -- read one
  err ← call env .One (.One "user" (.WherePK 1))
  let mut u2 : User := if err.isNone then env.oneRow else User.zero
  check err
  printf (.user u2)
  -- update one
  u2 := { u2 with Name := "jet.li" }
  err ← call env .Update (.Update "user" u2)
  check err
  -- condition and update
  err ← call env .UpdateM
    (.UpdateM "user" (.WhereM [("uid", .int 1), ("gid", .int 1)]) [("Name", .str "jet.li")])
  check err
  -- delete one
  err ← call env .Delete (.Delete "user" (.WherePK 1))
  check err
  -- insert several
  insertLoop env 0
  -- read several
  err ← call env .All (.All "user" (.Where "uid>?" 1))
  let userList : List User := if err.isNone then env.allRows else []
  check err
  printUsers userList
  -- update several
  err ← call env .UpdateMBatch (.UpdateM "user" (.Where "uid>?" 3) [("gid", .int 10)])
  check err
  -- delete several
  err ← call env .DeleteBatch (.Delete "user" (.Where "uid>?" 3))
  check err
  -- count
  err ← call env .Count (.Count "user" (.Where "uid>?" (-1)))
  let mut n : Int := env.agg .Count
  check err
  printf (.line ("count: " ++ toString n))
  -- sum
  err ← call env .Sum (.Sum "user" (.Where "uid>?" (-1)) "uid")
  n := env.agg .Sum
  check err
  printf (.line ("sum(uid): " ++ toString n))
  -- maximum
  err ← call env .Max (.Max "user" (.Where "uid>?" (-1)) "uid")
  n := env.agg .Max
  check err
  printf (.line ("max(uid): " ++ toString n))
  -- minimum
  err ← call env .Min (.Min "user" (.Where "uid>?" (-1)) "uid")
  n := env.agg .Min
  check err
  printf (.line ("min(uid): " ++ toString n))
  -- raw SQL, one row
  emit (.QueryRow queryRowSQL 2)
  err ← call env .QueryRowScan .RowScan
  let uid : Int := if err.isNone then env.queryRowUid else 0
  check err
  printf (.line ("uid: " ++ toString uid))
  emit (.LoadCache "user")
  -- raw SQL, several rows
  let name : String := ""
  err ← call env .Query (.Query querySQL)
  let mut rows : Rows := ⟨env.queryRows, none, false⟩
  check err
  emit .RowsClose
  rows := rows.Close
  scanLoop env rows 0 uid name
  emit (.LoadCache "user")

/-- The function `main`. -/
def main (env : Env) : M Unit := do
  let err ← call env .Open (.Open "mysql" dsn)
  check err
  withDefer (emit .Close) (afterDefer env)

/-- The state `main` starts in. -/
def St.init : St := ⟨[], []⟩

/-- One run of the program. -/
def run (env : Env) : Res Unit := main env St.init

/-! ## Runs in which every checked call goes through -/

/-- A site whose error `main` drops: the first `Exec`, whose `err` is
overwritten by the second, and `rows.Scan`, whose result is not assigned. -/
def Site.unchecked : Site → Bool
  | .ExecDrop => true
  | .RowsScan _ => true
  | _ => false

/-- The calls the multi-insert loop issues when every insert goes through. -/
def loopInserts (env : Env) : List Call :=
  [ .Insert "user" (loopUser env 0),
    .Insert "user" (loopUser env 1),
    .Insert "user" (loopUser env 2),
    .Insert "user" (loopUser env 3),
    .Insert "user" (loopUser env 4) ]

/-- The trace of a run in which every checked call goes through. -/
def okTrace (env : Env) : List Call :=
  [ .Open "mysql" dsn,
    .OpenLogFile "./db1_error.log",
    .SetMaxIdleConns 10,
    .SetMaxOpenConns 10,
    .SetConnMaxLifetime 5,
    .Exec dropTableSQL,
    .Exec createTableSQL,
    .BindStruct "user" true,
    .EnableCache true,
    .Insert "user" ⟨1, 1, "jet", env.now .InsertOne⟩,
    .One "user" (.WherePK 1),
    .Update "user" { env.oneRow with Name := "jet.li" },
    .UpdateM "user" (.WhereM [("uid", .int 1), ("gid", .int 1)]) [("Name", .str "jet.li")],
    .Delete "user" (.WherePK 1) ]
  ++ loopInserts env ++
  [ .All "user" (.Where "uid>?" 1),
    .UpdateM "user" (.Where "uid>?" 3) [("gid", .int 10)],
    .Delete "user" (.Where "uid>?" 3),
    .Count "user" (.Where "uid>?" (-1)),
    .Sum "user" (.Where "uid>?" (-1)) "uid",
    .Max "user" (.Where "uid>?" (-1)) "uid",
    .Min "user" (.Where "uid>?" (-1)) "uid",
    .QueryRow queryRowSQL 2,
    .RowScan,
    .LoadCache "user",
    .Query querySQL,
    .RowsClose,
    .RowsNext,
    .LoadCache "user",
    .Close ]

/-- The output of a run in which every checked call goes through. -/
def okOut (env : Env) : List Printed :=
  [ .user env.oneRow ] ++ env.allRows.map .user ++
  [ .line ("count: " ++ toString (env.agg .Count)),
    .line ("sum(uid): " ++ toString (env.agg .Sum)),
    .line ("max(uid): " ++ toString (env.agg .Max)),
    .line ("min(uid): " ++ toString (env.agg .Min)),
    .line ("uid: " ++ toString env.queryRowUid) ]

/-- A piece of the program that only adds calls satisfying `P` to the trace. -/
def Emits {α : Type} (P : Call → Prop) (m : M α) : Prop :=
  ∀ s, ∃ l, (m s).st.trace = s.trace ++ l ∧ ∀ c ∈ l, P c

/-! ## Kinds of operations -/

/-- The kinds of library operations: the ten the call-site sequence of the
example is described with, and the cache reload. -/
inductive Kind where
  | Open
  | Configure
  | CreateTable
  | Insert
  | Read
  | Update
  | Delete
  | Aggregate
  | RawQuery
  | CacheReload
  | Close
deriving DecidableEq, Repr

/-- The kind of a call, after the commented blocks of `main`. -/
def kind : Call → Kind
  | .Open _ _ => .Open
  | .OpenLogFile _ => .Configure
  | .SetMaxIdleConns _ => .Configure
  | .SetMaxOpenConns _ => .Configure
  | .SetConnMaxLifetime _ => .Configure
  | .Exec _ => .CreateTable
  | .BindStruct _ _ => .Configure
  | .EnableCache _ => .Configure
  | .Insert _ _ => .Insert
  | .One _ _ => .Read
  | .Update _ _ => .Update
  | .UpdateM _ _ _ => .Update
  | .Delete _ _ => .Delete
  | .All _ _ => .Read
  | .Count _ _ => .Aggregate
  | .Sum _ _ _ => .Aggregate
  | .Max _ _ _ => .Aggregate
  | .Min _ _ _ => .Aggregate
  | .QueryRow _ _ => .RawQuery
  | .RowScan => .RawQuery
  | .Query _ => .RawQuery
  | .RowsClose => .RawQuery
  | .RowsNext => .RawQuery
  | .RowsScan => .RawQuery
  | .LoadCache _ => .CacheReload
  | .Close => .Close

/-- Consecutive equal kinds become one. -/
def collapse : List Kind → List Kind
  | [] => []
  | k :: rest =>
    match rest with
    | [] => [k]
    | k' :: _ => if k = k' then collapse rest else k :: collapse rest

/-- Every kind once, at the place where it occurs first. -/
def firsts : List Kind → List Kind
  | [] => []
  | k :: ks => k :: (firsts ks).filter (fun k' => k' ≠ k)

/-- The call-site sequence as the description of the example gives it. -/
def specSequence : List Kind :=
  [ .Open, .Configure, .CreateTable, .Insert, .Read, .Update, .Delete, .Aggregate,
    .RawQuery, .Close ]

/-- The call-site sequence of a run without errors. -/
def okSequence : List Kind :=
  [ .Open, .Configure, .CreateTable, .Configure, .Insert, .Read, .Update, .Delete,
    .Insert, .Read, .Update, .Delete, .Aggregate, .RawQuery, .CacheReload, .RawQuery,
    .CacheReload, .Close ]

/-! ## Cache reloads after raw reads -/

/-- A raw SQL read: `db.QueryRow` or `db.Query`. -/
def isRawRead : Call → Bool
  | .QueryRow _ _ => true
  | .Query _ => true
  | _ => false

/-- An operation issued through `db.Table(...)`. -/
def isTableOp : Call → Bool
  | .Insert _ _ => true
  | .One _ _ => true
  | .Update _ _ => true
  | .UpdateM _ _ _ => true
  | .Delete _ _ => true
  | .All _ _ => true
  | .Count _ _ => true
  | .Sum _ _ _ => true
  | .Max _ _ _ => true
  | .Min _ _ _ => true
  | .LoadCache _ => true
  | _ => false

/-- In what follows a raw read, `LoadCache` on `user` comes before any other
table operation and before `db.Close`. -/
def reloadedNext : List Call → Bool
  | [] => false
  | c :: rest =>
    if c = .LoadCache "user" then true
    else if isTableOp c || decide (c = .Close) then false
    else reloadedNext rest

/-- Every raw read of a trace is followed by its cache reload. -/
def rawReadsReloaded : List Call → Bool
  | [] => true
  | c :: rest => (if isRawRead c then reloadedNext rest else true) && rawReadsReloaded rest

/-! ## The table the program creates -/

/-- The kind of a column. -/
inductive ColKind where
  | integer
  | text
  | timestamp
deriving DecidableEq, Repr

/-- The column kind a Go field type is stored as. -/
def GoType.kind : GoType → ColKind
  | .int64 => .integer
  | .string => .text
  | .time => .timestamp

/-- The column kind of an SQL type name. -/
def sqlKind (ty : String) : Option ColKind :=
  if ty = "INT" then some .integer
  else if ty = "TEXT" then some .text
  else if ty = "DATETIME" then some .timestamp
  else none

/-- A column definition of a `CREATE TABLE` statement. -/
structure Column where
  name : String
  sqlType : String
  primaryKey : Bool
  autoIncrement : Bool
  notNull : Bool
  defaultValue : Option String
deriving DecidableEq, Repr

/-- A table definition. -/
structure Table where
  name : String
  columns : List Column
deriving DecidableEq, Repr

/-- White space between the words of a statement. -/
def isSpace (c : Char) : Bool :=
  c = ' ' || c = '\t' || c = '\n' || c = '\r'

/-- The characters that are words of their own. -/
def isPunct (c : Char) : Bool :=
  c = '(' || c = ')' || c = ',' || c = ';'

/-- The word collected so far, if any; its characters are held newest first. -/
def flushWord (w : List Char) : List String :=
  if w.isEmpty then [] else [String.mk w.reverse]

/-- The words of a statement. -/
def tokenize : List Char → List Char → List String
  | [], w => flushWord w
  | c :: cs, w =>
    if isSpace c then flushWord w ++ tokenize cs []
    else if isPunct c then flushWord w ++ String.mk [c] :: tokenize cs []
    else tokenize cs (c :: w)

/-- Split the words after the opening bracket of the column list into the
column definitions, at the commas outside inner brackets, up to the closing
bracket. -/
def splitColumns : List String → Nat → List String → Option (List (List String))
  | [], _, _ => none
  | t :: ts, depth, cur =>
    if t = "(" then splitColumns ts (depth + 1) (cur ++ [t])
    else if t = ")" then
      match depth with
      | 0 => some [cur]
      | d + 1 => splitColumns ts d (cur ++ [t])
    else if t = "," ∧ depth = 0 then (splitColumns ts 0 []).map (fun cols => cur :: cols)
    else splitColumns ts depth (cur ++ [t])

/-- Whether the words `a b` occur next to each other. -/
def hasPair (a b : String) : List String → Bool
  | [] => false
  | x :: rest =>
    match rest with
    | [] => false
    | y :: _ => (x = a && y = b) || hasPair a b rest

/-- The word after the first occurrence of `key`. -/
def wordAfter (key : String) : List String → Option String
  | [] => none
  | t :: ts => if t = key then ts.head? else wordAfter key ts

/-- Read one column definition: name, type, attributes. -/
def parseColumn : List String → Option Column
  | name :: ty :: rest =>
    some { name := name
           sqlType := ty
           primaryKey := hasPair "PRIMARY" "KEY" rest
           autoIncrement := rest.contains "AUTO_INCREMENT"
           notNull := hasPair "NOT" "NULL" rest
           defaultValue := wordAfter "DEFAULT" rest }
  | _ => none

/-- Read a statement `CREATE TABLE name ( column, ... )`. -/
def parseCreateTable (sql : String) : Option Table :=
  match tokenize sql.toList [] with
  | kw1 :: kw2 :: name :: br :: rest =>
    if kw1 = "CREATE" ∧ kw2 = "TABLE" ∧ br = "(" then
      match splitColumns rest 0 [] with
      | some cols => (cols.mapM parseColumn).map (fun cs => ⟨name, cs⟩)
      | none => none
    else none
  | _ => none

/-- The table the statement `createTableSQL` defines. -/
def userTable : Table :=
  { name := "user"
    columns :=
      [ { name := "uid", sqlType := "INT", primaryKey := true, autoIncrement := true,
          notNull := false, defaultValue := none },
        { name := "gid", sqlType := "INT", primaryKey := false, autoIncrement := false,
          notNull := true, defaultValue := some "'0'" },
        { name := "name", sqlType := "TEXT", primaryKey := false, autoIncrement := false,
          notNull := false, defaultValue := some "''" },
        { name := "createDate", sqlType := "DATETIME", primaryKey := false,
          autoIncrement := false, notNull := false,
          defaultValue := some "CURRENT_TIMESTAMP" } ] }

/-! ## Sample environments -/

/-- An environment in which no call returns an error; the multi-row query has
three rows. -/
def envOK : Env :=
  { err := fun _ => none
    now := fun _ => 0
    oneRow := ⟨1, 1, "jet", 0⟩
    allRows := [⟨2, 2, "name-2", 0⟩, ⟨3, 3, "name-3", 0⟩, ⟨4, 4, "name-4", 0⟩]
    agg := fun _ => 3
    queryRowUid := 2
    queryRows := [(3, "name-3"), (2, "name-2"), (1, "name-1")] }

/-- As `envOK`, but `DROP TABLE` returns an error. -/
def envDropFails : Env :=
  { envOK with err := fun x => if x = .ExecDrop then some "drop failed" else none }

/-- As `envOK`, but `Open` returns an error. -/
def envOpenFails : Env :=
  { envOK with err := fun x => if x = .Open then some "no connection" else none }

/-- As `envOK`, but `Count` returns an error. -/
def envCountFails : Env :=
  { envOK with err := fun x => if x = .Count then some "count failed" else none }

/-- As `envOK`, but the insert of the loop iteration `2` returns an error. -/
def envLoopFails : Env :=
  { envOK with err := fun x => if x = .InsertLoop 2 then some "duplicate key" else none }

/-! ## Lemmas -/

theorem bind_eq {α β : Type} (m : M α) (f : α → M β) : (m >>= f) = M.bind m f := rfl

theorem pure_eq {α : Type} (a : α) : (pure a : M α) = fun s => Res.ok a s := rfl

theorem insertLoop_ok (env : Env)
    (h : ∀ i, 0 ≤ i → i < 5 → env.err (.InsertLoop i) = none) (s : St) :
    insertLoop env 0 s = .ok () { s with trace := s.trace ++ loopInserts env } := by
  have h0 := h 0 (by decide) (by decide)
  have h1 := h 1 (by decide) (by decide)
  have h2 := h 2 (by decide) (by decide)
  have h3 := h 3 (by decide) (by decide)
  have h4 := h 4 (by decide) (by decide)
  rw [insertLoop]; simp [M.bind, call, emit, check, h0, bind_eq, pure_eq]
  rw [insertLoop]; simp [M.bind, call, emit, check, h1, bind_eq, pure_eq]
  rw [insertLoop]; simp [M.bind, call, emit, check, h2, bind_eq, pure_eq]
  rw [insertLoop]; simp [M.bind, call, emit, check, h3, bind_eq, pure_eq]
  rw [insertLoop]; simp [M.bind, call, emit, check, h4, bind_eq, pure_eq]
  rw [insertLoop]; simp [pure_eq, loopInserts]

theorem scanLoop_closed (env : Env) (rows : Rows) (k : Nat) (uid : Int) (name : String)
    (h : rows.closed = true) (s : St) :
    scanLoop env rows k uid name s = .ok () { s with trace := s.trace ++ [.RowsNext] } := by
  rw [scanLoop]
  have hn : rows.Next = (false, rows) := by simp [Rows.Next, h]
  simp [M.bind, emit, hn, pure_eq]

theorem printUsers_eq (us : List User) (s : St) :
    printUsers us s = .ok () { s with out := s.out ++ us.map .user } := by
  induction us generalizing s with
  | nil => simp [printUsers, pure_eq]
  | cons u us ih => simp [printUsers, M.bind, printf, ih]

theorem run_ok (env : Env) (h : ∀ x, x.unchecked = false → env.err x = none) :
    run env = .ok () ⟨okTrace env, okOut env⟩ := by
  have hl : ∀ i, 0 ≤ i → i < 5 → env.err (.InsertLoop i) = none := fun i _ _ => h _ rfl
  simp [run, main, afterDefer, withDefer, M.bind, call, emit, check, printf, bind_eq, pure_eq,
    St.init, insertLoop_ok env hl, scanLoop_closed, printUsers_eq, Rows.Close,
    h .Open rfl, h .ExecCreate rfl, h .InsertOne rfl, h .One rfl, h .Update rfl, h .UpdateM rfl,
    h .Delete rfl, h .All rfl, h .UpdateMBatch rfl, h .DeleteBatch rfl, h .Count rfl, h .Sum rfl,
    h .Max rfl, h .Min rfl, h .QueryRowScan rfl, h .Query rfl, okTrace, okOut]

theorem emits_pure {α : Type} (P : Call → Prop) (a : α) : Emits P (pure a : M α) := by
  intro s; exact ⟨[], by simp [pure_eq, Res.st], by simp⟩

theorem emits_goPanic {α : Type} (P : Call → Prop) (e : String) : Emits P (goPanic e : M α) := by
  intro s; exact ⟨[], by simp [goPanic, Res.st], by simp⟩

theorem emits_printf (P : Call → Prop) (p : Printed) : Emits P (printf p) := by
  intro s; exact ⟨[], by simp [printf, Res.st], by simp⟩

theorem emits_emit (P : Call → Prop) (c : Call) (h : P c) : Emits P (emit c) := by
  intro s; exact ⟨[c], by simp [emit, Res.st], by simpa using h⟩

theorem emits_mbind {α β : Type} (P : Call → Prop) (m : M α) (f : α → M β)
    (hm : Emits P m) (hf : ∀ a, Emits P (f a)) : Emits P (M.bind m f) := by
  intro s
  obtain ⟨l, hl, hP⟩ := hm s
  unfold M.bind
  cases hms : m s with
  | ok a s' =>
    obtain ⟨l', hl', hP'⟩ := hf a s'
    rw [hms] at hl
    simp only [Res.st] at hl
    refine ⟨l ++ l', ?_, ?_⟩
    · simp only [hl', hl, List.append_assoc]
    · intro c hc
      rcases List.mem_append.mp hc with h | h
      · exact hP c h
      · exact hP' c h
  | panic e s' =>
    rw [hms] at hl
    exact ⟨l, by simpa [Res.st] using hl, hP⟩

theorem emits_bind {α β : Type} (P : Call → Prop) (m : M α) (f : α → M β)
    (hm : Emits P m) (hf : ∀ a, Emits P (f a)) : Emits P (m >>= f) :=
  emits_mbind P m f hm hf

theorem emits_check (P : Call → Prop) (err : Option String) : Emits P (check err) := by
  cases err with
  | none => exact emits_pure P ()
  | some e => exact emits_goPanic P e

theorem emits_call (P : Call → Prop) (env : Env) (x : Site) (c : Call) (h : P c) :
    Emits P (call env x c) := by
  unfold call
  exact emits_bind P _ _ (emits_emit P c h) (fun _ => emits_pure P _)

theorem emits_printUsers (P : Call → Prop) (us : List User) : Emits P (printUsers us) := by
  induction us with
  | nil => exact emits_pure P ()
  | cons u us ih => exact emits_mbind P _ _ (emits_printf P _) (fun _ => ih)

theorem emits_insertLoop (P : Call → Prop) (env : Env) (hP : ∀ t u, P (.Insert t u)) (i : Int) :
    Emits P (insertLoop env i) := by
  generalize hn : (5 - i).toNat = n
  induction n generalizing i with
  | zero =>
    rw [insertLoop]
    have : ¬ i < 5 := by omega
    simp only [this, if_false]
    exact emits_pure P ()
  | succ n ih =>
    rw [insertLoop]
    have : i < 5 := by omega
    simp only [this, if_true]
    refine emits_mbind P _ _ (emits_call P env _ _ (hP _ _)) (fun err => ?_)
    refine emits_mbind P _ _ (emits_check P err) (fun _ => ?_)
    exact ih (i + 1) (by omega)

theorem emits_scanLoop (P : Call → Prop) (env : Env) (hN : P .RowsNext) (hS : P .RowsScan)
    (rows : Rows) (k : Nat) (uid : Int) (name : String) :
    Emits P (scanLoop env rows k uid name) := by
  generalize hn : rows.pending.length = n
  induction n using Nat.strong_induction_on generalizing rows k uid name with
  | _ n ih =>
    rw [scanLoop]
    refine emits_mbind P _ _ (emits_emit P _ hN) (fun _ => ?_)
    by_cases h : rows.Next.1 = true
    · simp only [h, dite_true]
      refine emits_mbind P _ _ (emits_emit P _ hS) (fun _ => ?_)
      refine emits_mbind P _ _ (emits_printf P _) (fun _ => ?_)
      have hlt : rows.Next.2.pending.length < rows.pending.length := by
        unfold Rows.Next at h ⊢
        split
        · next hc => simp [hc] at h
        · next hc =>
          cases hp : rows.pending with
          | nil => simp [hc, hp] at h
          | cons x xs => simp
      exact ih _ (hn ▸ hlt) _ _ _ _ rfl
    · simp only [h, dite_false]
      exact emits_pure P ()

theorem emits_afterDefer (env : Env) : Emits (fun c => c ≠ .Close) (afterDefer env) := by
  unfold afterDefer
  dsimp only
  repeat' first
    | exact emits_emit _ _ (by simp)
    | exact emits_call _ _ _ _ (by simp)
    | exact emits_check _ _
    | exact emits_printf _ _
    | exact emits_printUsers _ _
    | exact emits_insertLoop _ _ (by simp) _
    | exact emits_scanLoop _ _ (by simp) (by simp) _ _ _ _
    | exact emits_pure _ _
    | apply emits_bind
    | apply emits_mbind
    | intro _

theorem withDefer_emit_trace {α : Type} (c : Call) (body : M α) (s : St) :
    (withDefer (emit c) body s).st.trace = (body s).st.trace ++ [c] := by
  unfold withDefer
  cases body s <;> rfl

theorem insertLoop_trace (env : Env) (i : Int) (s : St) :
    ∃ l, (insertLoop env i s).st.trace = s.trace ++ l ∧
      ∀ c ∈ l, ∃ j, i ≤ j ∧ j < 5 ∧ c = .Insert "user" (loopUser env j) ∧
        ∀ m, i ≤ m → m < j → env.err (.InsertLoop m) = none := by
  generalize hn : (5 - i).toNat = n
  induction n generalizing i s with
  | zero =>
    rw [insertLoop]
    have : ¬ i < 5 := by omega
    exact ⟨[], by simp [this, pure_eq, Res.st], by simp⟩
  | succ n ih =>
    rw [insertLoop]
    have hi : i < 5 := by omega
    simp only [hi, if_true, M.bind, call, emit, bind_eq, pure_eq]
    cases he : env.err (.InsertLoop i) with
    | some e =>
      refine ⟨[.Insert "user" (loopUser env i)], by simp [check, goPanic, Res.st], ?_⟩
      intro c hc
      simp only [List.mem_singleton] at hc
      exact ⟨i, le_refl i, hi, hc, fun m h1 h2 => absurd h2 (by omega)⟩
    | none =>
      simp only [check, pure_eq]
      obtain ⟨l, hl, hP⟩ := ih (i + 1) { s with trace := s.trace ++ [.Insert "user" (loopUser env i)] }
        (by omega)
      refine ⟨.Insert "user" (loopUser env i) :: l, by simpa using hl, ?_⟩
      intro c hc
      rcases List.mem_cons.mp hc with hc | hc
      · exact ⟨i, le_refl i, hi, hc, fun m h1 h2 => absurd h2 (by omega)⟩
      · obtain ⟨j, h1, h2, h3, h4⟩ := hP c hc
        refine ⟨j, by omega, h2, h3, fun m hm1 hm2 => ?_⟩
        by_cases hmi : m = i
        · rw [hmi]; exact he
        · exact h4 m (by omega) hm2

theorem reloadedNext_spec (post : List Call) (h : reloadedNext post = true) :
    ∃ mid rest, post = mid ++ Call.LoadCache "user" :: rest ∧
      ∀ d ∈ mid, isTableOp d = false ∧ d ≠ .Close := by
  induction post with
  | nil => simp [reloadedNext] at h
  | cons c cs ih =>
    unfold reloadedNext at h
    by_cases h1 : c = Call.LoadCache "user"
    · exact ⟨[], cs, by simp [h1], by simp⟩
    · simp only [h1, if_false] at h
      by_cases h2 : (isTableOp c || decide (c = Call.Close)) = true
      · simp [h2] at h
      · simp only [h2] at h
        obtain ⟨mid, rest, hm, hd⟩ := ih (by simpa using h)
        refine ⟨c :: mid, rest, by simp [hm], ?_⟩
        intro d hd'
        rcases List.mem_cons.mp hd' with hd' | hd'
        · subst hd'
          simp only [Bool.or_eq_true, decide_eq_true_eq, not_or] at h2
          exact ⟨by simpa using h2.1, h2.2⟩
        · exact hd d hd'

theorem rawReadsReloaded_spec (t : List Call) (h : rawReadsReloaded t = true)
    (pre : List Call) (c : Call) (post : List Call) (ht : t = pre ++ c :: post)
    (hc : isRawRead c = true) : reloadedNext post = true := by
  induction pre generalizing t with
  | nil =>
    subst ht
    simp only [List.nil_append, rawReadsReloaded, hc, if_true, Bool.and_eq_true] at h
    exact h.1
  | cons p ps ih =>
    subst ht
    simp only [List.cons_append, rawReadsReloaded, Bool.and_eq_true] at h
    exact ih _ h.2 rfl

theorem kinds_okTrace (env : Env) :
    (okTrace env).map kind =
      [ .Open, .Configure, .Configure, .Configure, .Configure, .CreateTable, .CreateTable,
        .Configure, .Configure, .Insert, .Read, .Update, .Update, .Delete, .Insert, .Insert,
        .Insert, .Insert, .Insert, .Read, .Update, .Delete, .Aggregate, .Aggregate,
        .Aggregate, .Aggregate, .RawQuery, .RawQuery, .CacheReload, .RawQuery, .RawQuery,
        .RawQuery, .CacheReload, .Close ] := rfl

/-! ## The claims -/

/-- C1, at the failing input: `DROP TABLE` returns an error and `main` does not
panic.  It goes on to the `CREATE TABLE` statement and to everything after it,
and the run is the run without any error. -/
theorem drop_error_not_checked :
    envDropFails.err .ExecDrop = some "drop failed" ∧
    (run envDropFails).panicked = false ∧
    ((run envDropFails).st.trace.drop 5).take 3 =
      [.Exec dropTableSQL, .Exec createTableSQL, .BindStruct "user" true] ∧
    run envDropFails = run envOK := by
  have h1 : run envDropFails = .ok () ⟨okTrace envDropFails, okOut envDropFails⟩ := by
    apply run_ok
    intro x hx
    cases x <;> first | rfl | simp [Site.unchecked] at hx
  have h2 : run envOK = .ok () ⟨okTrace envOK, okOut envOK⟩ := run_ok envOK (fun _ _ => rfl)
  rw [h1, h2]
  exact ⟨rfl, rfl, rfl, rfl⟩

/-- C2, as stated, fails: on the run without errors the collapsed sequence of
kinds is not the ten-step sequence, since inserts, reads, updates and deletes
come twice. -/
theorem spec_sequence_refuted :
    (∀ x, envOK.err x = none) ∧
    collapse ((run envOK).st.trace.map kind) ≠ specSequence := by
  rw [run_ok envOK (fun _ _ => rfl)]
  simp only [Res.st, kinds_okTrace]
  exact ⟨fun _ => rfl, by decide⟩

/-- C2, amended: on every run in which no call returns an error the collapsed
sequence of kinds is open, configure, create table, configure, insert, read,
update, delete, insert, read, update, delete, aggregate, raw query, cache
reload, raw query, cache reload, close; the kinds other than the cache reload
occur first in the order open, configure, create table, insert, read, update,
delete, aggregate, raw query, close. -/
theorem ok_run_sequence (env : Env) (h : ∀ x, env.err x = none) :
    collapse ((run env).st.trace.map kind) = okSequence ∧
    firsts (((run env).st.trace.map kind).filter (fun k => k ≠ .CacheReload)) =
      specSequence := by
  rw [run_ok env (fun x _ => h x)]
  simp only [Res.st, kinds_okTrace]
  exact ⟨by decide, by decide⟩

/-- The amended C2 at the environment `envOK`. -/
theorem ok_run_sequence_witness :
    (∀ x, envOK.err x = none) ∧
    collapse ((run envOK).st.trace.map kind) = okSequence ∧
    firsts (((run envOK).st.trace.map kind).filter (fun k => k ≠ .CacheReload)) =
      specSequence :=
  ⟨fun _ => rfl, ok_run_sequence envOK (fun _ => rfl)⟩

/-- C3: when `Open` succeeds the trace of the run ends with `db.Close` and has
no other `db.Close`, whatever the later calls return; when `Open` fails the
trace has no `db.Close`. -/
theorem close_called_once (env : Env) :
    (env.err .Open = none →
      ∃ pre, (run env).st.trace = pre ++ [.Close] ∧ Call.Close ∉ pre) ∧
    (env.err .Open ≠ none → Call.Close ∉ (run env).st.trace) := by
  constructor
  · intro h
    obtain ⟨l, hl, hP⟩ := emits_afterDefer env ⟨[.Open "mysql" dsn], []⟩
    refine ⟨[.Open "mysql" dsn] ++ l, ?_, ?_⟩
    · simp only [run, main, bind_eq, M.bind, call, emit, pure_eq, h, check, St.init,
        List.nil_append, withDefer_emit_trace]
      rw [hl]
    · intro hc
      rcases List.mem_append.mp hc with hc | hc
      · simp at hc
      · exact hP _ hc rfl
  · intro h
    cases he : env.err .Open with
    | none => exact absurd he h
    | some e =>
      simp [run, main, bind_eq, M.bind, call, emit, pure_eq, he, check, goPanic, St.init, Res.st]

/-- C3 at three environments: a run that returns, a run that panics at `Count`,
and a run in which `Open` fails. -/
theorem close_called_once_witness :
    (∃ pre, (run envOK).st.trace = pre ++ [.Close] ∧ Call.Close ∉ pre) ∧
    (∃ pre, (run envCountFails).st.trace = pre ++ [.Close] ∧ Call.Close ∉ pre) ∧
    Call.Close ∉ (run envOpenFails).st.trace :=
  ⟨(close_called_once envOK).1 rfl, (close_called_once envCountFails).1 rfl,
    (close_called_once envOpenFails).2 (by simp [envOpenFails])⟩

/-- C4: the `db` tags of the four fields of `User` and the kinds of their types
are the names and kinds of the columns of the table the `CREATE TABLE`
statement defines, in the same order; the table is `user`, its primary key is
`uid`, and `createDate` is the column that defaults to the current time. -/
theorem user_fields_match_table :
    UserFields.map (fun f => (f.dbTag, f.type.kind)) =
      [("uid", .integer), ("gid", .integer), ("name", .text), ("createDate", .timestamp)] ∧
    parseCreateTable createTableSQL = some userTable ∧
    userTable.name = "user" ∧
    userTable.columns.map (fun c => (c.name, sqlKind c.sqlType)) =
      UserFields.map (fun f => (f.dbTag, some f.type.kind)) ∧
    (userTable.columns.filter (fun c => c.primaryKey)).map (fun c => c.name) = ["uid"] ∧
    (userTable.columns.filter (fun c => c.defaultValue = some "CURRENT_TIMESTAMP")).map
      (fun c => c.name) = ["createDate"] :=
  ⟨rfl, rfl, rfl, rfl, rfl, rfl⟩

/-- C5, at the failing input: the multi-row query returns three rows without
error, and `main` scans none of them and prints no line for them, because
`rows.Close()` runs before the loop. -/
theorem query_rows_not_scanned :
    envOK.queryRows = [(3, "name-3"), (2, "name-2"), (1, "name-1")] ∧
    (run envOK).panicked = false ∧
    (run envOK).st.trace.count .RowsScan = 0 ∧
    (run envOK).st.trace.count .RowsNext = 1 ∧
    (run envOK).st.out =
      [ .user ⟨1, 1, "jet", 0⟩, .user ⟨2, 2, "name-2", 0⟩, .user ⟨3, 3, "name-3", 0⟩,
        .user ⟨4, 4, "name-4", 0⟩, .line "count: 3", .line "sum(uid): 3",
        .line "max(uid): 3", .line "min(uid): 3", .line "uid: 2" ] := by
  rw [run_ok envOK (fun _ _ => rfl)]
  exact ⟨rfl, rfl, by decide, by decide, by decide⟩

/-- C6: the multi-insert loop is a total function (its counter runs up to 5).
When no insert of the iterations 0 to 4 fails it issues the five inserts on
`user` with `Uid = Gid = k` and `Name = "name-k"` for `k` = 0, 1, 2, 3, 4, in
this order, and nothing else.  When the insert of iteration `k` fails, every
insert the loop issues belongs to an iteration `j ≤ k`. -/
theorem insertLoop_spec (env : Env) (s : St) :
    ((∀ i, 0 ≤ i → i < 5 → env.err (.InsertLoop i) = none) →
      insertLoop env 0 s = .ok () { s with trace := s.trace ++
        [ .Insert "user" ⟨0, 0, "name-0", env.now (.InsertLoop 0)⟩,
          .Insert "user" ⟨1, 1, "name-1", env.now (.InsertLoop 1)⟩,
          .Insert "user" ⟨2, 2, "name-2", env.now (.InsertLoop 2)⟩,
          .Insert "user" ⟨3, 3, "name-3", env.now (.InsertLoop 3)⟩,
          .Insert "user" ⟨4, 4, "name-4", env.now (.InsertLoop 4)⟩ ] }) ∧
    (∀ k, 0 ≤ k → env.err (.InsertLoop k) ≠ none →
      ∃ l, (insertLoop env 0 s).st.trace = s.trace ++ l ∧
        ∀ c ∈ l, ∃ j, 0 ≤ j ∧ j ≤ k ∧ c = .Insert "user" (loopUser env j)) := by
  constructor
  · intro h
    rw [insertLoop_ok env h s]
    rfl
  · intro k hk hne
    obtain ⟨l, hl, hP⟩ := insertLoop_trace env 0 s
    refine ⟨l, hl, fun c hc => ?_⟩
    obtain ⟨j, h1, _, h3, h4⟩ := hP c hc
    refine ⟨j, h1, ?_, h3⟩
    by_contra hjk
    exact hne (h4 k hk (by omega))

/-- C6 at two environments: no insert fails, and the insert of iteration 2
fails. -/
theorem insertLoop_spec_witness :
    insertLoop envOK 0 St.init = .ok () { St.init with trace := St.init.trace ++
        [ .Insert "user" ⟨0, 0, "name-0", envOK.now (.InsertLoop 0)⟩,
          .Insert "user" ⟨1, 1, "name-1", envOK.now (.InsertLoop 1)⟩,
          .Insert "user" ⟨2, 2, "name-2", envOK.now (.InsertLoop 2)⟩,
          .Insert "user" ⟨3, 3, "name-3", envOK.now (.InsertLoop 3)⟩,
          .Insert "user" ⟨4, 4, "name-4", envOK.now (.InsertLoop 4)⟩ ] } ∧
    ∃ l, (insertLoop envLoopFails 0 St.init).st.trace = St.init.trace ++ l ∧
        ∀ c ∈ l, ∃ j, 0 ≤ j ∧ j ≤ 2 ∧ c = .Insert "user" (loopUser envLoopFails j) :=
  ⟨(insertLoop_spec envOK St.init).1 (fun _ _ _ => rfl),
    (insertLoop_spec envLoopFails St.init).2 2 (by decide) (by simp [envLoopFails])⟩

/-- C7: on a run in which no call returns an error, every raw read in the trace
(`QueryRow` or `Query`) is followed by `LoadCache` on `user`, with no table
operation and no `db.Close` between the two; the raw reads of the trace are
the two of `main`, both issued after `EnableCache(true)`. -/
theorem raw_reads_reloaded (env : Env) (h : ∀ x, env.err x = none) :
    (∀ pre c post, (run env).st.trace = pre ++ c :: post → isRawRead c = true →
      ∃ mid rest, post = mid ++ Call.LoadCache "user" :: rest ∧
        ∀ d ∈ mid, isTableOp d = false ∧ d ≠ .Close) ∧
    (run env).st.trace.filter isRawRead = [.QueryRow queryRowSQL 2, .Query querySQL] ∧
    ((run env).st.trace.dropWhile (fun c => decide (c ≠ .EnableCache true))).filter isRawRead =
      [.QueryRow queryRowSQL 2, .Query querySQL] := by
  rw [run_ok env (fun x _ => h x)]
  refine ⟨fun pre c post ht hc => ?_, rfl, rfl⟩
  exact reloadedNext_spec post (rawReadsReloaded_spec (okTrace env) rfl pre c post ht hc)

/-- C7 at the environment `envOK`. -/
theorem raw_reads_reloaded_witness :
    (∀ x, envOK.err x = none) ∧
    (∀ pre c post, (run envOK).st.trace = pre ++ c :: post → isRawRead c = true →
      ∃ mid rest, post = mid ++ Call.LoadCache "user" :: rest ∧
        ∀ d ∈ mid, isTableOp d = false ∧ d ≠ .Close) :=
  ⟨fun _ => rfl, (raw_reads_reloaded envOK (fun _ => rfl)).1⟩

end Dbx
